import Mathlib

/-!
Shallow embedding of the Palapa rooms program
(`src/programs/solana-playground/src/lib.rs`).

Machine integers (`u64`) are modelled as `Nat` together with the checked
arithmetic used by the source (`checked_mul`, `checked_add`, `checked_sub`,
`checked_div`), each returning `none` exactly when the corresponding `u64`
operation would fail.  Account identities (`Pubkey`) are modelled as `Nat`.
Fallible instructions return `Except ProgErr …`; the Solana/Anchor runtime
aborts the whole transaction on error, so an error commits no state — this
host rollback semantics is captured by `applyOp`, which keeps the prior
state on error.  Lamport transfers out of the vault are recorded in an
explicit ledger `List (Nat × Nat)` of `(recipient, amount)` pairs so that
conservation claims can be stated.  PDA bump seeds and account-address
derivation are host mechanics outside the embedding and are omitted.
-/

/-- Size of the `u64` domain. -/
def u64Size : Nat := 2 ^ 64

/-- `u64::checked_mul`. -/
def checked_mul (a b : Nat) : Option Nat :=
  if a * b < u64Size then some (a * b) else none

/-- `u64::checked_add`. -/
def checked_add (a b : Nat) : Option Nat :=
  if a + b < u64Size then some (a + b) else none

/-- `u64::checked_sub`. -/
def checked_sub (a b : Nat) : Option Nat :=
  if b ≤ a then some (a - b) else none

/-- `u64::checked_div`. -/
def checked_div (a b : Nat) : Option Nat :=
  if b = 0 then none else some (a / b)

-- Fee constants (lib.rs lines 15-18).
def CREATOR_FEE_BASIS_POINTS : Nat := 500

def SERVICE_FEE_BASIS_POINTS : Nat := 300

/-- Stand-in for the fixed service wallet pubkey constant (pubkeys are
abstracted to `Nat`; only its identity matters). -/
def SERVICE_WALLET_PUBKEY : Nat := 990001

def BASIS_POINTS_DENOMINATOR : Nat := 10000

-- Data size constants (lib.rs lines 21-22).
def MAX_ROOM_SEED_LEN : Nat := 32

def MAX_PLAYERS_ALLOWED : Nat := 100

/-- `RoomStatus` enum (lib.rs lines 367-374). -/
inductive RoomStatus where
  | Created
  | OpenForJoining
  | InProgress
  | Finished
  | Cancelled
deriving DecidableEq, Repr

/-- `PalapaError` enum (lib.rs lines 381-401). -/
inductive PalapaError where
  | InvalidMaxPlayers
  | InvalidEntryFee
  | InvalidRoomSeed
  | BumpSeedNotFound
  | RoomNotJoinable
  | RoomFull
  | PlayerAlreadyJoined
  | RoomNotInProgress
  | WinnerNotInRoom
  | WinnerAccountMismatch
  | VaultNotEmptyAfterPayout
  | Unauthorized
  | CannotCancelRoomState
  | CannotCancelRoomPlayersJoined
  | CalculationOverflow
  | InvalidServiceWallet
  | InsufficientFundsForPayout
  | MaxPlayersExceedsLimit
  | InvalidCreator
deriving DecidableEq, Repr

/-- Program-level error: a `PalapaError` raised by a `require!`/`ok_or`, or a
failure of the external system-program transfer primitive (e.g. the payer
cannot cover the amount). -/
inductive ProgErr where
  | palapa (e : PalapaError)
  | transferFailed
deriving DecidableEq, Repr

/-- `RoomData` account (lib.rs lines 328-341).  The `bump`/`vault_bump`
fields are PDA mechanics and are omitted from the embedding. -/
structure RoomData where
  creator : Nat
  room_seed : String
  status : RoomStatus
  winner : Option Nat
  max_players : Nat
  entry_fee : Nat
  players : List Nat
  creation_timestamp : Int
  end_timestamp : Option Int
deriving DecidableEq, Repr

/-- `.ok_or(PalapaError::CalculationOverflow)?` on a checked-arithmetic
result. -/
def ok_or (o : Option Nat) : Except ProgErr Nat :=
  match o with
  | some x => .ok x
  | none => .error (.palapa .CalculationOverflow)

/-- The system-program transfer primitive, viewed from the sending account:
succeeds iff the sender's balance covers the amount, returning the sender's
new balance. -/
def transfer_out (balance amount : Nat) : Except ProgErr Nat :=
  if amount ≤ balance then .ok (balance - amount) else .error .transferFailed

/-- The system-program transfer primitive, viewed from the receiving vault:
succeeds iff the sender's balance covers the amount and the vault's `u64`
balance does not overflow, returning the vault's new balance. -/
def transfer_in (sender_balance vault amount : Nat) : Except ProgErr Nat :=
  if amount ≤ sender_balance ∧ vault + amount < u64Size then
    .ok (vault + amount)
  else .error .transferFailed

/-- `create_room` (lib.rs lines 30-61): validates the inputs and returns the
initialized `RoomData`.  The vault is created alongside it holding exactly
the rent-exempt baseline. -/
def create_room (creator : Nat) (room_seed : String) (max_players : Nat)
    (entry_fee : Nat) (now : Int) : Except ProgErr RoomData :=
  if max_players > 1 then
    if room_seed.utf8ByteSize ≠ 0 ∧ room_seed.utf8ByteSize ≤ MAX_ROOM_SEED_LEN then
      if max_players ≤ MAX_PLAYERS_ALLOWED then
        .ok { creator := creator
              room_seed := room_seed
              status := RoomStatus.OpenForJoining
              winner := none
              max_players := max_players
              entry_fee := entry_fee
              players := []
              creation_timestamp := now
              end_timestamp := none }
      else .error (.palapa .MaxPlayersExceedsLimit)
    else .error (.palapa .InvalidRoomSeed)
  else .error (.palapa .InvalidMaxPlayers)

/-- `join_room` (lib.rs lines 64-101): status/capacity/duplicate checks,
entry-fee deposit into the vault, roster append, and the transition to
`InProgress` when the room becomes full.  Returns the updated room and
vault balance. -/
def join_room (room : RoomData) (vault : Nat) (player : Nat)
    (player_lamports : Nat) : Except ProgErr (RoomData × Nat) :=
  if room.status = RoomStatus.OpenForJoining then
    if room.players.length < room.max_players then
      if player ∈ room.players then .error (.palapa .PlayerAlreadyJoined)
      else
        match (if room.entry_fee > 0 then
                transfer_in player_lamports vault room.entry_fee
              else .ok vault) with
        | .error e => .error e
        | .ok vault' =>
          let players' := room.players ++ [player]
          if players'.length = room.max_players then
            .ok ({ room with players := players', status := RoomStatus.InProgress },
                 vault')
          else
            .ok ({ room with players := players' }, vault')
    else .error (.palapa .RoomFull)
  else .error (.palapa .RoomNotJoinable)

/-- Settlement arithmetic of `announce_winner` (lib.rs lines 135-139): the
two fee computations, the fee total, the winner's prize share, and the
winner's total payout, each step checked. Returns
`(creator_fee, service_fee, winner_share_prize, winner_total_receive)`. -/
def settleFees (total_prize_amount vault_rent : Nat) :
    Except ProgErr (Nat × Nat × Nat × Nat) :=
  match ok_or (checked_mul total_prize_amount CREATOR_FEE_BASIS_POINTS) with
  | .error e => .error e
  | .ok m1 =>
    match ok_or (checked_div m1 BASIS_POINTS_DENOMINATOR) with
    | .error e => .error e
    | .ok creator_fee =>
      match ok_or (checked_mul total_prize_amount SERVICE_FEE_BASIS_POINTS) with
      | .error e => .error e
      | .ok m2 =>
        match ok_or (checked_div m2 BASIS_POINTS_DENOMINATOR) with
        | .error e => .error e
        | .ok service_fee =>
          match ok_or (checked_add creator_fee service_fee) with
          | .error e => .error e
          | .ok fees_total =>
            match ok_or (checked_sub total_prize_amount fees_total) with
            | .error e => .error e
            | .ok winner_share_prize =>
              match ok_or (checked_add winner_share_prize vault_rent) with
              | .error e => .error e
              | .ok winner_total_receive =>
                .ok (creator_fee, service_fee, winner_share_prize,
                     winner_total_receive)

/-- One guarded payout (`if amount > 0 { transfer(...) }`): transfers
`amount` from the vault to `recipient` when it is positive, recording it in
the ledger `acc`. -/
def payIf (balance : Nat) (recipient amount : Nat) (acc : List (Nat × Nat)) :
    Except ProgErr (Nat × List (Nat × Nat)) :=
  if amount > 0 then
    match transfer_out balance amount with
    | .error e => .error e
    | .ok b' => .ok (b', acc ++ [(recipient, amount)])
  else .ok (balance, acc)

/-- `announce_winner` (lib.rs lines 104-177).  Account constraints are
checked in Anchor's order — `has_one = creator` (`Unauthorized`), the winner
account constraint (`WinnerAccountMismatch`), the service wallet constraint
(`InvalidServiceWallet`) — before the handler body.  Returns the updated
room, the final vault balance, and the ledger of outgoing transfers. -/
def announce_winner (room : RoomData) (vault : Nat) (caller winner_pubkey
    winner_account service_fee_recipient vault_rent : Nat) (now : Int) :
    Except ProgErr (RoomData × Nat × List (Nat × Nat)) :=
  if caller = room.creator then
    if winner_account = winner_pubkey then
      if service_fee_recipient = SERVICE_WALLET_PUBKEY then
        if room.status = RoomStatus.InProgress then
          if winner_pubkey ∈ room.players then
            let room' := { room with winner := some winner_pubkey
                                     status := RoomStatus.Finished
                                     end_timestamp := some now }
            let total_prize_amount := (checked_sub vault vault_rent).getD 0
            let settled : Except ProgErr (Nat × List (Nat × Nat)) :=
              if total_prize_amount > 0 then
                match settleFees total_prize_amount vault_rent with
                | .error e => .error e
                | .ok (creator_fee, service_fee, _winner_share_prize,
                       winner_total_receive) =>
                  match payIf vault caller creator_fee [] with
                  | .error e => .error e
                  | .ok (v1, t1) =>
                    match payIf v1 service_fee_recipient service_fee t1 with
                    | .error e => .error e
                    | .ok (v2, t2) =>
                      payIf v2 winner_account winner_total_receive t2
              else
                let current_vault_balance := vault
                if current_vault_balance > 0 then
                  match transfer_out vault current_vault_balance with
                  | .error e => .error e
                  | .ok v1 => .ok (v1, [(winner_account, current_vault_balance)])
                else .ok (vault, [])
            match settled with
            | .error e => .error e
            | .ok (vault_lamports_after, ts) =>
              if vault_lamports_after = 0 then .ok (room', vault_lamports_after, ts)
              else .error (.palapa .VaultNotEmptyAfterPayout)
          else .error (.palapa .WinnerNotInRoom)
        else .error (.palapa .RoomNotInProgress)
      else .error (.palapa .InvalidServiceWallet)
    else .error (.palapa .WinnerAccountMismatch)
  else .error (.palapa .Unauthorized)

/-- `cancel_room` (lib.rs lines 180-213).  The `has_one = creator`
constraint (`Unauthorized`) precedes the handler body.  Returns the updated
room, the final vault balance, and the ledger of outgoing transfers. -/
def cancel_room (room : RoomData) (vault : Nat) (caller : Nat) (now : Int) :
    Except ProgErr (RoomData × Nat × List (Nat × Nat)) :=
  if caller = room.creator then
    if room.status = RoomStatus.OpenForJoining ∨ room.status = RoomStatus.Created then
      if room.players = [] then
        let room' := { room with status := RoomStatus.Cancelled
                                 end_timestamp := some now }
        if vault > 0 then
          match transfer_out vault vault with
          | .error e => .error e
          | .ok v' =>
            if v' = 0 then .ok (room', v', [(caller, vault)])
            else .error (.palapa .VaultNotEmptyAfterPayout)
        else .ok (room', vault, [])
      else .error (.palapa .CannotCancelRoomPlayersJoined)
    else .error (.palapa .CannotCancelRoomState)
  else .error (.palapa .Unauthorized)

/-- The persisted state of one room: its ledger entry and its vault's
lamport balance. -/
structure ChainState where
  room : RoomData
  vault : Nat
deriving DecidableEq, Repr

/-- One instruction invocation with its call-time arguments. -/
inductive Op where
  | joinOp (player player_lamports : Nat)
  | announceOp (caller winner_pubkey winner_account service_acc : Nat) (now : Int)
  | cancelOp (caller : Nat) (now : Int)

/-- Runs one instruction against a state; `vault_rent` is the rent-exempt
baseline reported by the host (`Rent::get()?.minimum_balance(0)`). -/
def runOp (vault_rent : Nat) (s : ChainState) : Op → Except ProgErr ChainState
  | .joinOp p l =>
    match join_room s.room s.vault p l with
    | .ok (r, v) => .ok ⟨r, v⟩
    | .error e => .error e
  | .announceOp c w wa sa now =>
    match announce_winner s.room s.vault c w wa sa vault_rent now with
    | .ok (r, v, _) => .ok ⟨r, v⟩
    | .error e => .error e
  | .cancelOp c now =>
    match cancel_room s.room s.vault c now with
    | .ok (r, v, _) => .ok ⟨r, v⟩
    | .error e => .error e

/-- Transaction semantics of the host: a failing instruction aborts the
transaction and commits nothing, so the prior state is kept. -/
def applyOp (vault_rent : Nat) (s : ChainState) (op : Op) : ChainState :=
  match runOp vault_rent s op with
  | .ok s' => s'
  | .error _ => s

/-- States reachable through the program: a freshly created room (whose
vault holds the rent-exempt baseline) followed by any sequence of
successful instructions. -/
inductive Reachable (vault_rent : Nat) : ChainState → Prop where
  | created : ∀ creator seed max_players entry_fee now room,
      create_room creator seed max_players entry_fee now = .ok room →
      Reachable vault_rent ⟨room, vault_rent⟩
  | step : ∀ s op s', Reachable vault_rent s →
      runOp vault_rent s op = .ok s' → Reachable vault_rent s'

/-- One `join_room` request `(player, player_lamports)` applied with
transaction rollback semantics. -/
def applyJoin (s : ChainState) (req : Nat × Nat) : ChainState :=
  match join_room s.room s.vault req.1 req.2 with
  | .ok (r, v) => ⟨r, v⟩
  | .error _ => s

/-- A sequence of `join_room` requests applied in order. -/
def applyJoins (s : ChainState) (reqs : List (Nat × Nat)) : ChainState :=
  reqs.foldl applyJoin s

deriving instance DecidableEq for Except

/-! ### Arithmetic facts about the fee split -/

lemma u64Size_eq : u64Size = 18446744073709551616 := by norm_num [u64Size]

lemma fee_sum_le (p : Nat) : p * 500 / 10000 + p * 300 / 10000 ≤ p := by
  have h1 : p * 500 / 10000 * 10000 ≤ p * 500 := Nat.div_mul_le_self _ _
  have h2 : p * 300 / 10000 * 10000 ≤ p * 300 := Nat.div_mul_le_self _ _
  omega

lemma creator_fee_eq (p : Nat) : p * 500 / 10000 = p * 5 / 100 := by
  have e1 : p * 500 = p * 5 * 100 := by ring
  have e2 : (10000 : Nat) = 100 * 100 := by norm_num
  rw [e1, e2, Nat.mul_div_mul_right (p * 5) 100 (by norm_num)]

lemma service_fee_eq (p : Nat) : p * 300 / 10000 = p * 3 / 100 := by
  have e1 : p * 300 = p * 3 * 100 := by ring
  have e2 : (10000 : Nat) = 100 * 100 := by norm_num
  rw [e1, e2, Nat.mul_div_mul_right (p * 3) 100 (by norm_num)]

lemma checked_sub_getD (a b : Nat) : (checked_sub a b).getD 0 = a - b := by
  unfold checked_sub
  split
  · simp
  · simp
    omega

lemma transfer_out_self (v : Nat) : transfer_out v v = .ok 0 := by
  simp [transfer_out]

/-! ### Characterization of `settleFees` -/

lemma settleFees_ok (p ρ : Nat) (h1 : p * 500 < u64Size)
    (h2 : p - (p * 500 / 10000 + p * 300 / 10000) + ρ < u64Size) :
    settleFees p ρ = .ok (p * 500 / 10000, p * 300 / 10000,
      p - (p * 500 / 10000 + p * 300 / 10000),
      p - (p * 500 / 10000 + p * 300 / 10000) + ρ) := by
  have hu := u64Size_eq
  have h3 : p * 300 < u64Size := by omega
  have h4 : p * 500 / 10000 + p * 300 / 10000 ≤ p := fee_sum_le p
  have h5 : p * 500 / 10000 + p * 300 / 10000 < u64Size := by omega
  simp [settleFees, ok_or, checked_mul, checked_div, checked_add, checked_sub,
        CREATOR_FEE_BASIS_POINTS, SERVICE_FEE_BASIS_POINTS,
        BASIS_POINTS_DENOMINATOR, h1, h2, h3, h4, h5]

lemma settleFees_err_mul (p ρ : Nat) (h1 : ¬ p * 500 < u64Size) :
    settleFees p ρ = .error (.palapa .CalculationOverflow) := by
  simp [settleFees, ok_or, checked_mul, CREATOR_FEE_BASIS_POINTS, h1]

lemma settleFees_err_add (p ρ : Nat) (h1 : p * 500 < u64Size)
    (h2 : ¬ p - (p * 500 / 10000 + p * 300 / 10000) + ρ < u64Size) :
    settleFees p ρ = .error (.palapa .CalculationOverflow) := by
  have hu := u64Size_eq
  have h3 : p * 300 < u64Size := by omega
  have h4 : p * 500 / 10000 + p * 300 / 10000 ≤ p := fee_sum_le p
  have h5 : p * 500 / 10000 + p * 300 / 10000 < u64Size := by omega
  simp [settleFees, ok_or, checked_mul, checked_div, checked_add, checked_sub,
        CREATOR_FEE_BASIS_POINTS, SERVICE_FEE_BASIS_POINTS,
        BASIS_POINTS_DENOMINATOR, h1, h2, h3, h4, h5]

lemma settleFees_ok_iff (p ρ : Nat) (out : Nat × Nat × Nat × Nat) :
    settleFees p ρ = .ok out ↔
      p * 500 < u64Size ∧
      p - (p * 500 / 10000 + p * 300 / 10000) + ρ < u64Size ∧
      out = (p * 500 / 10000, p * 300 / 10000,
        p - (p * 500 / 10000 + p * 300 / 10000),
        p - (p * 500 / 10000 + p * 300 / 10000) + ρ) := by
  constructor
  · intro h
    by_cases h1 : p * 500 < u64Size
    · by_cases h2 : p - (p * 500 / 10000 + p * 300 / 10000) + ρ < u64Size
      · rw [settleFees_ok p ρ h1 h2] at h
        exact ⟨h1, h2, (Except.ok.inj h).symm⟩
      · rw [settleFees_err_add p ρ h1 h2] at h
        simp at h
    · rw [settleFees_err_mul p ρ h1] at h
      simp at h
  · rintro ⟨h1, h2, rfl⟩
    exact settleFees_ok p ρ h1 h2

lemma settleFees_err_only_overflow (p ρ : Nat) (e : ProgErr)
    (h : settleFees p ρ = .error e) : e = .palapa .CalculationOverflow := by
  by_cases h1 : p * 500 < u64Size
  · by_cases h2 : p - (p * 500 / 10000 + p * 300 / 10000) + ρ < u64Size
    · rw [settleFees_ok p ρ h1 h2] at h
      simp at h
    · rw [settleFees_err_add p ρ h1 h2] at h
      exact (Except.error.inj h).symm
  · rw [settleFees_err_mul p ρ h1] at h
    exact (Except.error.inj h).symm

/-! ### Characterization of the payout chain in `announce_winner` -/

lemma payIf_ok (b r a : Nat) (acc : List (Nat × Nat)) (h : a ≤ b) :
    payIf b r a acc = .ok (b - a, if 0 < a then acc ++ [(r, a)] else acc) := by
  by_cases ha : 0 < a
  · simp [payIf, transfer_out, ha, h]
  · have ha0 : a = 0 := by omega
    subst ha0
    simp [payIf]

lemma payIf_err (b r a : Nat) (acc : List (Nat × Nat)) (ha : 0 < a)
    (h : ¬ a ≤ b) : payIf b r a acc = .error .transferFailed := by
  simp [payIf, transfer_out, ha, h]

lemma payIf_ok_inv (b r a : Nat) (acc : List (Nat × Nat)) (b' : Nat)
    (ts : List (Nat × Nat)) (h : payIf b r a acc = .ok (b', ts)) :
    b' + (ts.map Prod.snd).sum = b + (acc.map Prod.snd).sum := by
  by_cases ha : 0 < a
  · by_cases hab : a ≤ b
    · rw [payIf_ok b r a acc hab] at h
      simp [ha] at h
      obtain ⟨hb, hts⟩ := h
      subst hb hts
      simp
      omega
    · rw [payIf_err b r a acc ha hab] at h
      simp at h
  · have ha0 : a = 0 := by omega
    subst ha0
    simp [payIf] at h
    obtain ⟨hb, hts⟩ := h
    subst hb hts
    rfl

/-- The five guard conditions of `announce_winner` (account constraints in
Anchor order, then the two handler `require!`s). -/
def announceGuards (room : RoomData) (caller winner_pubkey winner_account
    service_fee_recipient : Nat) : Prop :=
  caller = room.creator ∧ winner_account = winner_pubkey ∧
  service_fee_recipient = SERVICE_WALLET_PUBKEY ∧
  room.status = RoomStatus.InProgress ∧ winner_pubkey ∈ room.players

lemma announce_err_unauthorized (room : RoomData) (vault caller wpk wa sa ρ : Nat)
    (now : Int) (hc : ¬ caller = room.creator) :
    announce_winner room vault caller wpk wa sa ρ now =
      .error (.palapa .Unauthorized) := by
  simp [announce_winner, hc]

lemma announce_err_mismatch (room : RoomData) (vault caller wpk wa sa ρ : Nat)
    (now : Int) (hc : caller = room.creator) (hwa : ¬ wa = wpk) :
    announce_winner room vault caller wpk wa sa ρ now =
      .error (.palapa .WinnerAccountMismatch) := by
  simp [announce_winner, hc, hwa]

lemma announce_err_service (room : RoomData) (vault caller wpk wa sa ρ : Nat)
    (now : Int) (hc : caller = room.creator) (hwa : wa = wpk)
    (hsa : ¬ sa = SERVICE_WALLET_PUBKEY) :
    announce_winner room vault caller wpk wa sa ρ now =
      .error (.palapa .InvalidServiceWallet) := by
  simp [announce_winner, hc, hwa, hsa]

lemma announce_err_status (room : RoomData) (vault caller wpk wa sa ρ : Nat)
    (now : Int) (hc : caller = room.creator) (hwa : wa = wpk)
    (hsa : sa = SERVICE_WALLET_PUBKEY)
    (hst : ¬ room.status = RoomStatus.InProgress) :
    announce_winner room vault caller wpk wa sa ρ now =
      .error (.palapa .RoomNotInProgress) := by
  simp [announce_winner, hc, hwa, hsa, hst]

lemma announce_err_not_in_room (room : RoomData) (vault caller wpk wa sa ρ : Nat)
    (now : Int) (hc : caller = room.creator) (hwa : wa = wpk)
    (hsa : sa = SERVICE_WALLET_PUBKEY)
    (hst : room.status = RoomStatus.InProgress) (hmem : ¬ wpk ∈ room.players) :
    announce_winner room vault caller wpk wa sa ρ now =
      .error (.palapa .WinnerNotInRoom) := by
  simp [announce_winner, hc, hwa, hsa, hst, hmem]

/-- Inversion for a successful `announce_winner`: all guards held, the room
was finalized, and the vault was drained to exactly 0, with the executed
transfers summing to the vault's entire starting balance. -/
lemma announce_ok_inv (room : RoomData) (vault caller wpk wa sa ρ : Nat)
    (now : Int) (room' : RoomData) (v' : Nat) (ts : List (Nat × Nat))
    (h : announce_winner room vault caller wpk wa sa ρ now = .ok (room', v', ts)) :
    announceGuards room caller wpk wa sa ∧
    room' = { room with winner := some wpk
                        status := RoomStatus.Finished
                        end_timestamp := some now } ∧
    v' = 0 ∧ (ts.map Prod.snd).sum = vault := by
  by_cases hc : caller = room.creator
  case neg =>
    rw [announce_err_unauthorized _ _ _ _ _ _ _ _ hc] at h
    simp at h
  by_cases hwa : wa = wpk
  case neg =>
    rw [announce_err_mismatch _ _ _ _ _ _ _ _ hc hwa] at h
    simp at h
  by_cases hsa : sa = SERVICE_WALLET_PUBKEY
  case neg =>
    rw [announce_err_service _ _ _ _ _ _ _ _ hc hwa hsa] at h
    simp at h
  by_cases hst : room.status = RoomStatus.InProgress
  case neg =>
    rw [announce_err_status _ _ _ _ _ _ _ _ hc hwa hsa hst] at h
    simp at h
  by_cases hmem : wpk ∈ room.players
  case neg =>
    rw [announce_err_not_in_room _ _ _ _ _ _ _ _ hc hwa hsa hst hmem] at h
    simp at h
  refine ⟨⟨hc, hwa, hsa, hst, hmem⟩, ?_⟩
  by_cases hp : 0 < vault - ρ
  · rcases hFs : settleFees (vault - ρ) ρ with e | ⟨cf, sf, ws, wt⟩
    · simp [announce_winner, hc, hwa, hsa, hst, hmem, checked_sub_getD, hp,
            hFs] at h
    · rcases hP1 : payIf vault room.creator cf [] with e1 | ⟨v1, t1⟩
      · simp [announce_winner, hc, hwa, hsa, hst, hmem, checked_sub_getD, hp,
              hFs, hP1] at h
      · rcases hP2 : payIf v1 SERVICE_WALLET_PUBKEY sf t1 with e2 | ⟨v2, t2⟩
        · simp [announce_winner, hc, hwa, hsa, hst, hmem, checked_sub_getD, hp,
                hFs, hP1, hP2] at h
        · rcases hP3 : payIf v2 wpk wt t2 with e3 | ⟨v3, t3⟩
          · simp [announce_winner, hc, hwa, hsa, hst, hmem, checked_sub_getD,
                  hp, hFs, hP1, hP2, hP3] at h
          · have k1 := payIf_ok_inv _ _ _ _ _ _ hP1
            have k2 := payIf_ok_inv _ _ _ _ _ _ hP2
            have k3 := payIf_ok_inv _ _ _ _ _ _ hP3
            simp [announce_winner, hc, hwa, hsa, hst, hmem, checked_sub_getD,
                  hp, hFs, hP1, hP2, hP3] at h
            by_cases hv3 : v3 = 0
            · simp [hv3] at h
              obtain ⟨hr, hv, hts⟩ := h
              subst hv hts
              refine ⟨hr.symm, rfl, ?_⟩
              simp at k1
              omega
            · simp [hv3] at h
  · by_cases hv : 0 < vault
    · simp [announce_winner, hc, hwa, hsa, hst, hmem, checked_sub_getD, hp, hv,
            transfer_out_self] at h
      obtain ⟨hr, hv', hts⟩ := h
      subst hv' hts
      exact ⟨hr.symm, rfl, by simp⟩
    · have hv0 : vault = 0 := by omega
      subst hv0
      simp [announce_winner, hc, hwa, hsa, hst, hmem, checked_sub_getD] at h
      obtain ⟨hr, hv', hts⟩ := h
      subst hv' hts
      exact ⟨hr.symm, rfl, by simp⟩

/-- With all guards passing and a positive prize pool, a settlement
arithmetic error propagates to the whole instruction. -/
lemma announce_err_settle (room : RoomData) (vault caller wpk wa sa ρ : Nat)
    (now : Int) (e : ProgErr) (hc : caller = room.creator) (hwa : wa = wpk)
    (hsa : sa = SERVICE_WALLET_PUBKEY)
    (hst : room.status = RoomStatus.InProgress) (hmem : wpk ∈ room.players)
    (hp : 0 < vault - ρ) (hFs : settleFees (vault - ρ) ρ = .error e) :
    announce_winner room vault caller wpk wa sa ρ now = .error e := by
  simp [announce_winner, hc, hwa, hsa, hst, hmem, checked_sub_getD, hp, hFs]

/-- With all guards passing and a zero prize pool, `announce_winner`
succeeds, pays the whole remaining vault balance (if any) to the winner in
one transfer, and leaves the vault at 0. -/
lemma announce_ok_zero (room : RoomData) (vault caller wpk wa sa ρ : Nat)
    (now : Int) (hc : caller = room.creator) (hwa : wa = wpk)
    (hsa : sa = SERVICE_WALLET_PUBKEY)
    (hst : room.status = RoomStatus.InProgress) (hmem : wpk ∈ room.players)
    (hp : vault - ρ = 0) :
    announce_winner room vault caller wpk wa sa ρ now =
      .ok ({ room with winner := some wpk
                       status := RoomStatus.Finished
                       end_timestamp := some now },
           0, if 0 < vault then [(wpk, vault)] else []) := by
  have hp' : ¬ 0 < vault - ρ := by omega
  by_cases hv : 0 < vault
  · simp [announce_winner, hc, hwa, hsa, hst, hmem, checked_sub_getD, hp', hv,
          transfer_out_self]
  · have hv0 : vault = 0 := by omega
    subst hv0
    simp [announce_winner, hc, hwa, hsa, hst, hmem, checked_sub_getD]

/-! ### Characterization of `cancel_room` -/

lemma cancel_err_unauthorized (room : RoomData) (vault caller : Nat) (now : Int)
    (hc : ¬ caller = room.creator) :
    cancel_room room vault caller now = .error (.palapa .Unauthorized) := by
  simp [cancel_room, hc]

lemma cancel_err_state (room : RoomData) (vault caller : Nat) (now : Int)
    (hc : caller = room.creator)
    (hst : ¬ (room.status = RoomStatus.OpenForJoining ∨
              room.status = RoomStatus.Created)) :
    cancel_room room vault caller now = .error (.palapa .CannotCancelRoomState) := by
  simp [cancel_room, hc, hst]

lemma cancel_err_players (room : RoomData) (vault caller : Nat) (now : Int)
    (hc : caller = room.creator)
    (hst : room.status = RoomStatus.OpenForJoining ∨
           room.status = RoomStatus.Created)
    (hpl : ¬ room.players = []) :
    cancel_room room vault caller now =
      .error (.palapa .CannotCancelRoomPlayersJoined) := by
  simp [cancel_room, hc, hst, hpl]

lemma cancel_ok (room : RoomData) (vault caller : Nat) (now : Int)
    (hc : caller = room.creator)
    (hst : room.status = RoomStatus.OpenForJoining ∨
           room.status = RoomStatus.Created)
    (hpl : room.players = []) :
    cancel_room room vault caller now =
      .ok ({ room with status := RoomStatus.Cancelled
                       end_timestamp := some now },
           0, if 0 < vault then [(caller, vault)] else []) := by
  by_cases hv : 0 < vault
  · simp [cancel_room, hc, hst, hpl, hv, transfer_out_self]
  · have hv0 : vault = 0 := by omega
    subst hv0
    simp [cancel_room, hc, hst, hpl]

lemma cancel_ok_inv (room : RoomData) (vault caller : Nat) (now : Int)
    (room' : RoomData) (v' : Nat) (ts : List (Nat × Nat))
    (h : cancel_room room vault caller now = .ok (room', v', ts)) :
    caller = room.creator ∧
    (room.status = RoomStatus.OpenForJoining ∨
     room.status = RoomStatus.Created) ∧
    room.players = [] ∧
    room' = { room with status := RoomStatus.Cancelled
                        end_timestamp := some now } ∧
    v' = 0 ∧ ts = (if 0 < vault then [(caller, vault)] else []) := by
  by_cases hc : caller = room.creator
  case neg =>
    rw [cancel_err_unauthorized _ _ _ _ hc] at h
    simp at h
  by_cases hst : room.status = RoomStatus.OpenForJoining ∨
      room.status = RoomStatus.Created
  case neg =>
    rw [cancel_err_state _ _ _ _ hc hst] at h
    simp at h
  by_cases hpl : room.players = []
  case neg =>
    rw [cancel_err_players _ _ _ _ hc hst hpl] at h
    simp at h
  rw [cancel_ok _ _ _ _ hc hst hpl] at h
  simp at h
  obtain ⟨hr, hv, hts⟩ := h
  exact ⟨hc, hst, hpl, hr.symm, hv.symm, hts.symm⟩

/-! ### Characterization of `join_room` -/

lemma join_err_not_joinable (room : RoomData) (vault p l : Nat)
    (hst : ¬ room.status = RoomStatus.OpenForJoining) :
    join_room room vault p l = .error (.palapa .RoomNotJoinable) := by
  simp [join_room, hst]

lemma join_err_full (room : RoomData) (vault p l : Nat)
    (hst : room.status = RoomStatus.OpenForJoining)
    (hlen : ¬ room.players.length < room.max_players) :
    join_room room vault p l = .error (.palapa .RoomFull) := by
  simp [join_room, hst, hlen]

lemma join_err_already (room : RoomData) (vault p l : Nat)
    (hst : room.status = RoomStatus.OpenForJoining)
    (hlen : room.players.length < room.max_players)
    (hmem : p ∈ room.players) :
    join_room room vault p l = .error (.palapa .PlayerAlreadyJoined) := by
  simp [join_room, hst, hlen, hmem]

lemma join_ok_inv (room : RoomData) (vault p l : Nat) (r : RoomData) (v : Nat)
    (h : join_room room vault p l = .ok (r, v)) :
    room.status = RoomStatus.OpenForJoining ∧
    room.players.length < room.max_players ∧
    p ∉ room.players ∧
    r = (if (room.players ++ [p]).length = room.max_players
         then { room with players := room.players ++ [p]
                          status := RoomStatus.InProgress }
         else { room with players := room.players ++ [p] }) := by
  by_cases hst : room.status = RoomStatus.OpenForJoining
  case neg =>
    rw [join_err_not_joinable _ _ _ _ hst] at h
    simp at h
  by_cases hlen : room.players.length < room.max_players
  case neg =>
    rw [join_err_full _ _ _ _ hst hlen] at h
    simp at h
  by_cases hmem : p ∈ room.players
  case pos =>
    rw [join_err_already _ _ _ _ hst hlen hmem] at h
    simp at h
  refine ⟨hst, hlen, hmem, ?_⟩
  rcases htr : (if room.entry_fee > 0 then transfer_in l vault room.entry_fee
                else .ok vault) with e | v'
  · simp [join_room, hst, hlen, hmem, htr] at h
  · by_cases hfull : (room.players ++ [p]).length = room.max_players
    · simp only [join_room, if_pos hst, if_pos hlen, if_neg hmem, htr,
                 if_pos hfull] at h
      rw [if_pos hfull]
      simp at h
      exact h.1.symm
    · simp only [join_room, if_pos hst, if_pos hlen, if_neg hmem, htr,
                 if_neg hfull] at h
      rw [if_neg hfull]
      simp at h
      exact h.1.symm

lemma create_ok_inv (c : Nat) (seed : String) (mp fee : Nat) (now : Int)
    (room : RoomData) (h : create_room c seed mp fee now = .ok room) :
    room = { creator := c
             room_seed := seed
             status := RoomStatus.OpenForJoining
             winner := none
             max_players := mp
             entry_fee := fee
             players := []
             creation_timestamp := now
             end_timestamp := none } := by
  unfold create_room at h
  split at h
  · split at h
    · split at h
      · exact (Except.ok.inj h).symm
      · simp at h
    · simp at h
  · simp at h

/-- Invariant preserved by arbitrary `join_room` sequences: unique roster,
roster within the cap, status still open or in progress, and an open room
is strictly below the cap. -/
def JoinInv (s : ChainState) : Prop :=
  s.room.players.Nodup ∧
  s.room.players.length ≤ s.room.max_players ∧
  (s.room.status = RoomStatus.OpenForJoining ∨
   s.room.status = RoomStatus.InProgress) ∧
  (s.room.status = RoomStatus.OpenForJoining →
    s.room.players.length < s.room.max_players)

lemma applyJoin_inv (s : ChainState) (req : Nat × Nat) (hInv : JoinInv s) :
    JoinInv (applyJoin s req) ∧
    (∃ t, (applyJoin s req).room.players = s.room.players ++ t) ∧
    (applyJoin s req).room.max_players = s.room.max_players := by
  obtain ⟨hnd, hle, hsts, himp⟩ := hInv
  unfold applyJoin
  rcases hJ : join_room s.room s.vault req.1 req.2 with e | ⟨r, v⟩
  · exact ⟨⟨hnd, hle, hsts, himp⟩, ⟨[], by simp⟩, rfl⟩
  · obtain ⟨hst, hlen, hmem, hr⟩ := join_ok_inv _ _ _ _ _ _ hJ
    subst hr
    by_cases hfull : (s.room.players ++ [req.1]).length = s.room.max_players
    · rw [if_pos hfull]
      refine ⟨⟨?_, ?_, Or.inr rfl, ?_⟩, ⟨[req.1], rfl⟩, rfl⟩
      · simp [List.nodup_append, hnd, hmem]
      · exact le_of_eq hfull
      · intro hco
        simp at hco
    · rw [if_neg hfull]
      refine ⟨⟨?_, ?_, Or.inl hst, ?_⟩, ⟨[req.1], rfl⟩, rfl⟩
      · simp [List.nodup_append, hnd, hmem]
      · simp
        omega
      · intro _
        simp at hfull ⊢
        omega

lemma applyJoins_inv (reqs : List (Nat × Nat)) : ∀ s : ChainState, JoinInv s →
    JoinInv (applyJoins s reqs) ∧
    (∃ t, (applyJoins s reqs).room.players = s.room.players ++ t) ∧
    (applyJoins s reqs).room.max_players = s.room.max_players := by
  induction reqs with
  | nil =>
    intro s h
    exact ⟨h, ⟨[], by simp [applyJoins]⟩, rfl⟩
  | cons req rest ih =>
    intro s h
    obtain ⟨h1, ⟨t1, ht1⟩, hm1⟩ := applyJoin_inv s req h
    obtain ⟨h2, ⟨t2, ht2⟩, hm2⟩ := ih (applyJoin s req) h1
    have hstep : applyJoins s (req :: rest) = applyJoins (applyJoin s req) rest := rfl
    refine ⟨hstep ▸ h2, ⟨t1 ++ t2, ?_⟩, ?_⟩
    · rw [hstep, ht2, ht1, List.append_assoc]
    · rw [hstep, hm2, hm1]

/-! ### Sample states used to witness the theorems on concrete inputs -/

/-- A freshly created free room for two players. -/
def sampleRoomOpen : RoomData :=
  { creator := 0
    room_seed := "r"
    status := RoomStatus.OpenForJoining
    winner := none
    max_players := 2
    entry_fee := 0
    players := []
    creation_timestamp := 0
    end_timestamp := none }

/-- An open 1000-lamport room with one of two seats taken. -/
def sampleRoomHalf : RoomData :=
  { creator := 0
    room_seed := "r"
    status := RoomStatus.OpenForJoining
    winner := none
    max_players := 2
    entry_fee := 1000
    players := [1]
    creation_timestamp := 0
    end_timestamp := none }

/-- A full 1000-lamport room that is in progress. -/
def sampleRoomFull : RoomData :=
  { creator := 0
    room_seed := "r"
    status := RoomStatus.InProgress
    winner := none
    max_players := 2
    entry_fee := 1000
    players := [1, 2]
    creation_timestamp := 0
    end_timestamp := none }

/-- `sampleRoomFull` after player 2 is announced winner at time 7. -/
def sampleRoomFinished : RoomData :=
  { sampleRoomFull with winner := some 2
                        status := RoomStatus.Finished
                        end_timestamp := some 7 }

/-- The sample open room together with a 5-lamport (baseline) vault. -/
def sampleOpenState : ChainState := ⟨sampleRoomOpen, 5⟩

/-! ### The claims -/

/-- Claim C1: for every prize_pool > 0, the settlement of `announce_winner`
computes `creator_fee = floor(prize_pool * 500 / 10000)`,
`service_fee = floor(prize_pool * 300 / 10000)`, and
`winner_share = prize_pool - creator_fee - service_fee`; these satisfy
`creator_fee + service_fee + winner_share = prize_pool` exactly,
`creator_fee ≤ prize_pool * 5 / 100`, and
`service_fee ≤ prize_pool * 3 / 100`. -/
theorem c1_settlement_exact_split (p ρ cf sf ws wt : Nat) (_hp : 0 < p)
    (hok : settleFees p ρ = .ok (cf, sf, ws, wt)) :
    cf = p * 500 / 10000 ∧ sf = p * 300 / 10000 ∧
    ws = p - cf - sf ∧ cf + sf + ws = p ∧
    cf ≤ p * 5 / 100 ∧ sf ≤ p * 3 / 100 := by
  obtain ⟨h1, h2, heq⟩ := (settleFees_ok_iff p ρ _).1 hok
  obtain ⟨e1, e2, e3, e4⟩ : cf = p * 500 / 10000 ∧ sf = p * 300 / 10000 ∧
      ws = p - (p * 500 / 10000 + p * 300 / 10000) ∧
      wt = p - (p * 500 / 10000 + p * 300 / 10000) + ρ := by
    simpa [Prod.ext_iff] using heq
  subst e1
  subst e2
  subst e3
  have hsum := fee_sum_le p
  refine ⟨rfl, rfl, by omega, by omega, le_of_eq (creator_fee_eq p),
          le_of_eq (service_fee_eq p)⟩

theorem c1_witness :
    0 < 9999 ∧
    (499 = 9999 * 500 / 10000 ∧ 299 = 9999 * 300 / 10000 ∧
     9201 = 9999 - 499 - 299 ∧ 499 + 299 + 9201 = 9999 ∧
     499 ≤ 9999 * 5 / 100 ∧ 299 ≤ 9999 * 3 / 100) :=
  ⟨by decide, c1_settlement_exact_split 9999 5 499 299 9201 9206 (by decide)
    (by decide)⟩

/-- Claim C2: every successful `announce_winner` call leaves the vault at
exactly 0 lamports, and the amounts it transferred out sum exactly to the
vault's entire starting balance (baseline included). -/
theorem c2_vault_drained (room : RoomData) (vault caller wpk wa sa ρ : Nat)
    (now : Int) (room' : RoomData) (v' : Nat) (ts : List (Nat × Nat))
    (h : announce_winner room vault caller wpk wa sa ρ now = .ok (room', v', ts)) :
    v' = 0 ∧ (ts.map Prod.snd).sum = vault :=
  (announce_ok_inv room vault caller wpk wa sa ρ now room' v' ts h).2.2

theorem c2_witness :
    (0 : Nat) = 0 ∧
    (([(0, 100), (SERVICE_WALLET_PUBKEY, 60), (2, 1940)].map Prod.snd).sum
      = 2100 : Prop) :=
  c2_vault_drained sampleRoomFull 2100 0 2 2 SERVICE_WALLET_PUBKEY 100 7
    sampleRoomFinished 0 [(0, 100), (SERVICE_WALLET_PUBKEY, 60), (2, 1940)]
    (by decide)

/-- Claim C3: over any sequence of `join_room` calls on an open room with a
duplicate-free roster below the cap, the roster is append-only, stays
duplicate-free, never exceeds `max_players`; the join that fills the room
sets the status to `InProgress`, after which every further join fails. -/
theorem c3_join_sequences (s : ChainState) (reqs : List (Nat × Nat))
    (hst : s.room.status = RoomStatus.OpenForJoining)
    (hnd : s.room.players.Nodup)
    (hlt : s.room.players.length < s.room.max_players) :
    (∃ t, (applyJoins s reqs).room.players = s.room.players ++ t) ∧
    (applyJoins s reqs).room.players.Nodup ∧
    (applyJoins s reqs).room.players.length ≤ s.room.max_players ∧
    ((applyJoins s reqs).room.players.length = s.room.max_players →
      (applyJoins s reqs).room.status = RoomStatus.InProgress) ∧
    ((applyJoins s reqs).room.status = RoomStatus.InProgress →
      ∀ p l, join_room (applyJoins s reqs).room (applyJoins s reqs).vault p l =
        .error (.palapa .RoomNotJoinable)) := by
  have hInv : JoinInv s := ⟨hnd, le_of_lt hlt, Or.inl hst, fun _ => hlt⟩
  obtain ⟨⟨hnd', hle', hsts', himp'⟩, hpre, hmax⟩ := applyJoins_inv reqs s hInv
  refine ⟨hpre, hnd', by rw [← hmax]; exact hle', ?_, ?_⟩
  · intro hfull
    rcases hsts' with hOpen | hIp
    · have hlt' := himp' hOpen
      rw [hmax] at hlt'
      omega
    · exact hIp
  · intro hip p l
    exact join_err_not_joinable _ _ _ _ (by simp [hip])

theorem c3_witness :
    (∃ t, (applyJoins sampleOpenState [(1, 0), (2, 0)]).room.players =
      sampleOpenState.room.players ++ t) ∧
    (applyJoins sampleOpenState [(1, 0), (2, 0)]).room.players.Nodup ∧
    (applyJoins sampleOpenState [(1, 0), (2, 0)]).room.players.length ≤
      sampleOpenState.room.max_players ∧
    ((applyJoins sampleOpenState [(1, 0), (2, 0)]).room.players.length =
        sampleOpenState.room.max_players →
      (applyJoins sampleOpenState [(1, 0), (2, 0)]).room.status =
        RoomStatus.InProgress) ∧
    ((applyJoins sampleOpenState [(1, 0), (2, 0)]).room.status =
        RoomStatus.InProgress →
      ∀ p l, join_room (applyJoins sampleOpenState [(1, 0), (2, 0)]).room
        (applyJoins sampleOpenState [(1, 0), (2, 0)]).vault p l =
        .error (.palapa .RoomNotJoinable)) :=
  c3_join_sequences sampleOpenState [(1, 0), (2, 0)] (by decide) (by decide)
    (by decide)

/-- Claim C4: every failing operation commits nothing (the room entry and
vault balance are exactly as before); in particular a join by an
already-joined player fails with `PlayerAlreadyJoined` and changes nothing,
and an `announce_winner` that overflows mid-settlement changes nothing even
though the code assigns winner/status/end_timestamp before the arithmetic
(the host transaction aborts and rolls back). -/
theorem c4_error_atomicity (ρ : Nat) (s : ChainState) (op : Op) :
    (∀ e, runOp ρ s op = .error e → applyOp ρ s op = s) ∧
    (∀ p l, s.room.status = RoomStatus.OpenForJoining →
      s.room.players.length < s.room.max_players → p ∈ s.room.players →
      runOp ρ s (.joinOp p l) = .error (.palapa .PlayerAlreadyJoined) ∧
      applyOp ρ s (.joinOp p l) = s) ∧
    (∀ c wpk wa sa now, c = s.room.creator → wa = wpk →
      sa = SERVICE_WALLET_PUBKEY → s.room.status = RoomStatus.InProgress →
      wpk ∈ s.room.players → 0 < s.vault - ρ →
      ¬ (s.vault - ρ) * 500 < u64Size →
      runOp ρ s (.announceOp c wpk wa sa now) =
        .error (.palapa .CalculationOverflow) ∧
      applyOp ρ s (.announceOp c wpk wa sa now) = s) := by
  refine ⟨?_, ?_, ?_⟩
  · intro e h
    simp [applyOp, h]
  · intro p l hst hlen hmem
    have hJ := join_err_already s.room s.vault p l hst hlen hmem
    exact ⟨by simp [runOp, hJ], by simp [applyOp, runOp, hJ]⟩
  · intro c wpk wa sa now hc hwa hsa hst hmem hp hover
    have hFs := settleFees_err_mul (s.vault - ρ) ρ hover
    have hA := announce_err_settle s.room s.vault c wpk wa sa ρ now _
      hc hwa hsa hst hmem hp hFs
    exact ⟨by simp [runOp, hA], by simp [applyOp, runOp, hA]⟩

theorem c4_witness :
    (runOp 5 ⟨sampleRoomHalf, 1005⟩ (.joinOp 1 0) =
      .error (.palapa .PlayerAlreadyJoined) ∧
     applyOp 5 ⟨sampleRoomHalf, 1005⟩ (.joinOp 1 0) = ⟨sampleRoomHalf, 1005⟩) ∧
    (runOp 0 ⟨sampleRoomFull, u64Size - 1⟩
        (.announceOp 0 2 2 SERVICE_WALLET_PUBKEY 7) =
      .error (.palapa .CalculationOverflow) ∧
     applyOp 0 ⟨sampleRoomFull, u64Size - 1⟩
        (.announceOp 0 2 2 SERVICE_WALLET_PUBKEY 7) =
      ⟨sampleRoomFull, u64Size - 1⟩) :=
  ⟨(c4_error_atomicity 5 ⟨sampleRoomHalf, 1005⟩ (.joinOp 1 0)).2.1 1 0
      (by decide) (by decide) (by decide),
   (c4_error_atomicity 0 ⟨sampleRoomFull, u64Size - 1⟩
      (.announceOp 0 2 2 SERVICE_WALLET_PUBKEY 7)).2.2 0 2 2
      SERVICE_WALLET_PUBKEY 7 (by decide) rfl rfl (by decide) (by decide)
      (by decide) (by decide)⟩

/-- Claim C5: `announce_winner` succeeds only when the status is
`InProgress`, the caller is the creator, and the declared winner is in
`players`; a non-creator caller fails with `Unauthorized`, a room not in
progress fails with `RoomNotInProgress`, and a winner outside the roster
fails with `WinnerNotInRoom` (each attribution under the checks that
precede it in Anchor's account-validation order). -/
theorem c5_announce_guards (room : RoomData) (vault caller wpk wa sa ρ : Nat)
    (now : Int) :
    ((∃ out, announce_winner room vault caller wpk wa sa ρ now = .ok out) →
      caller = room.creator ∧ room.status = RoomStatus.InProgress ∧
      wpk ∈ room.players) ∧
    (¬ caller = room.creator →
      announce_winner room vault caller wpk wa sa ρ now =
        .error (.palapa .Unauthorized)) ∧
    (caller = room.creator → wa = wpk → sa = SERVICE_WALLET_PUBKEY →
      ¬ room.status = RoomStatus.InProgress →
      announce_winner room vault caller wpk wa sa ρ now =
        .error (.palapa .RoomNotInProgress)) ∧
    (caller = room.creator → wa = wpk → sa = SERVICE_WALLET_PUBKEY →
      room.status = RoomStatus.InProgress → ¬ wpk ∈ room.players →
      announce_winner room vault caller wpk wa sa ρ now =
        .error (.palapa .WinnerNotInRoom)) := by
  refine ⟨?_, fun hc => announce_err_unauthorized _ _ _ _ _ _ _ _ hc,
    fun hc hwa hsa hst => announce_err_status _ _ _ _ _ _ _ _ hc hwa hsa hst,
    fun hc hwa hsa hst hmem =>
      announce_err_not_in_room _ _ _ _ _ _ _ _ hc hwa hsa hst hmem⟩
  rintro ⟨⟨r', v', ts⟩, h⟩
  obtain ⟨⟨hc, _, _, hst, hmem⟩, _⟩ :=
    announce_ok_inv _ _ _ _ _ _ _ _ _ _ _ h
  exact ⟨hc, hst, hmem⟩

theorem c5_witness :
    ((0 : Nat) = sampleRoomFull.creator ∧
      sampleRoomFull.status = RoomStatus.InProgress ∧
      2 ∈ sampleRoomFull.players) ∧
    announce_winner sampleRoomFull 2100 9 2 2 SERVICE_WALLET_PUBKEY 100 7 =
      .error (.palapa .Unauthorized) ∧
    announce_winner sampleRoomOpen 2100 0 2 2 SERVICE_WALLET_PUBKEY 100 7 =
      .error (.palapa .RoomNotInProgress) ∧
    announce_winner sampleRoomFull 2100 0 3 3 SERVICE_WALLET_PUBKEY 100 7 =
      .error (.palapa .WinnerNotInRoom) :=
  ⟨(c5_announce_guards sampleRoomFull 2100 0 2 2 SERVICE_WALLET_PUBKEY 100 7).1
      ⟨(sampleRoomFinished, 0, [(0, 100), (SERVICE_WALLET_PUBKEY, 60), (2, 1940)]),
        by decide⟩,
   (c5_announce_guards sampleRoomFull 2100 9 2 2 SERVICE_WALLET_PUBKEY 100 7).2.1
      (by decide),
   (c5_announce_guards sampleRoomOpen 2100 0 2 2 SERVICE_WALLET_PUBKEY 100 7).2.2.1
      (by decide) rfl rfl (by decide),
   (c5_announce_guards sampleRoomFull 2100 0 3 3 SERVICE_WALLET_PUBKEY 100 7).2.2.2
      (by decide) rfl rfl (by decide) (by decide)⟩

/-- Claim C6: `cancel_room` succeeds only for the creator on a
`Created`/`OpenForJoining` room with no players; on success it sets the
status to `Cancelled`, sets `end_timestamp`, and drains a positive vault to
exactly 0 in one transfer (no transfer and no error when the vault is
already 0); with a joined player it fails with
`CannotCancelRoomPlayersJoined` and leaves the state unchanged. -/
theorem c6_cancel (room : RoomData) (vault caller : Nat) (now : Int) (ρ : Nat) :
    (∀ room' v' ts, cancel_room room vault caller now = .ok (room', v', ts) →
      caller = room.creator ∧
      (room.status = RoomStatus.OpenForJoining ∨
       room.status = RoomStatus.Created) ∧
      room.players = [] ∧
      room'.status = RoomStatus.Cancelled ∧ room'.end_timestamp = some now ∧
      v' = 0 ∧ ts = (if 0 < vault then [(caller, vault)] else [])) ∧
    (caller = room.creator →
      (room.status = RoomStatus.OpenForJoining ∨
       room.status = RoomStatus.Created) →
      room.players = [] →
      cancel_room room vault caller now =
        .ok ({ room with status := RoomStatus.Cancelled
                         end_timestamp := some now },
             0, if 0 < vault then [(caller, vault)] else [])) ∧
    (caller = room.creator →
      (room.status = RoomStatus.OpenForJoining ∨
       room.status = RoomStatus.Created) →
      ¬ room.players = [] →
      cancel_room room vault caller now =
        .error (.palapa .CannotCancelRoomPlayersJoined) ∧
      applyOp ρ ⟨room, vault⟩ (.cancelOp caller now) = ⟨room, vault⟩) := by
  refine ⟨?_, fun hc hst hpl => cancel_ok room vault caller now hc hst hpl, ?_⟩
  · intro room' v' ts h
    obtain ⟨hc, hst, hpl, hr, hv, hts⟩ := cancel_ok_inv _ _ _ _ _ _ _ h
    subst hr
    exact ⟨hc, hst, hpl, rfl, rfl, hv, hts⟩
  · intro hc hst hpl
    have hE := cancel_err_players room vault caller now hc hst hpl
    exact ⟨hE, by simp [applyOp, runOp, hE]⟩

theorem c6_witness :
    cancel_room sampleRoomOpen 5 0 9 =
      .ok ({ sampleRoomOpen with status := RoomStatus.Cancelled
                                 end_timestamp := some 9 },
           0, if 0 < 5 then [(0, 5)] else []) ∧
    (cancel_room sampleRoomHalf 1005 0 9 =
      .error (.palapa .CannotCancelRoomPlayersJoined) ∧
     applyOp 5 ⟨sampleRoomHalf, 1005⟩ (.cancelOp 0 9) = ⟨sampleRoomHalf, 1005⟩) :=
  ⟨(c6_cancel sampleRoomOpen 5 0 9 5).2.1 (by decide) (by decide) (by decide),
   (c6_cancel sampleRoomHalf 1005 0 9 5).2.2 (by decide) (by decide)
     (by decide)⟩

/-- Claim C7: the prize pool is the custody balance minus the baseline rent
floored at 0; when it is 0 no fees are charged and the entire remaining
custody balance goes to the winner in a single transfer (no transfer at all
if the balance is already 0), and the vault ends at 0 in both cases. -/
theorem c7_zero_prize (room : RoomData) (vault caller wpk wa sa ρ : Nat)
    (now : Int) :
    ((checked_sub vault ρ).getD 0 = vault - ρ) ∧
    (caller = room.creator → wa = wpk → sa = SERVICE_WALLET_PUBKEY →
     room.status = RoomStatus.InProgress → wpk ∈ room.players →
     vault - ρ = 0 →
     announce_winner room vault caller wpk wa sa ρ now =
       .ok ({ room with winner := some wpk
                        status := RoomStatus.Finished
                        end_timestamp := some now },
            0, if 0 < vault then [(wpk, vault)] else [])) :=
  ⟨checked_sub_getD vault ρ,
   fun hc hwa hsa hst hmem hp =>
     announce_ok_zero _ _ _ _ _ _ _ _ hc hwa hsa hst hmem hp⟩

theorem c7_witness :
    ((checked_sub 100 100).getD 0 = 100 - 100) ∧
    announce_winner sampleRoomFull 100 0 2 2 SERVICE_WALLET_PUBKEY 100 7 =
      .ok (sampleRoomFinished, 0, if 0 < 100 then [(2, 100)] else []) :=
  ⟨(c7_zero_prize sampleRoomFull 100 0 2 2 SERVICE_WALLET_PUBKEY 100 7).1,
   (c7_zero_prize sampleRoomFull 100 0 2 2 SERVICE_WALLET_PUBKEY 100 7).2
     (by decide) rfl rfl (by decide) (by decide) (by decide)⟩

/-- Claim C8: if any settlement arithmetic step (fee multiplications, fee
additions, or the winner-total addition over u64) would overflow,
`announce_winner` returns `CalculationOverflow` and the whole operation
fails — the arithmetic never silently saturates, wraps, or truncates. -/
theorem c8_overflow_fails (room : RoomData) (vault caller wpk wa sa ρ : Nat)
    (now : Int) (hc : caller = room.creator) (hwa : wa = wpk)
    (hsa : sa = SERVICE_WALLET_PUBKEY)
    (hst : room.status = RoomStatus.InProgress) (hmem : wpk ∈ room.players)
    (hp : 0 < vault - ρ)
    (hover : checked_mul (vault - ρ) CREATOR_FEE_BASIS_POINTS = none ∨
      checked_mul (vault - ρ) SERVICE_FEE_BASIS_POINTS = none ∨
      checked_add ((vault - ρ) * 500 / 10000) ((vault - ρ) * 300 / 10000) = none ∨
      checked_add ((vault - ρ) -
        ((vault - ρ) * 500 / 10000 + (vault - ρ) * 300 / 10000)) ρ = none) :
    announce_winner room vault caller wpk wa sa ρ now =
      .error (.palapa .CalculationOverflow) := by
  have hFs : settleFees (vault - ρ) ρ = .error (.palapa .CalculationOverflow) := by
    set p := vault - ρ with hpdef
    rcases hover with h | h | h | h
    · have h1 : ¬ p * 500 < u64Size := by
        by_cases hx : p * 500 < u64Size
        · simp [checked_mul, CREATOR_FEE_BASIS_POINTS, hx] at h
        · exact hx
      exact settleFees_err_mul p ρ h1
    · have h3 : ¬ p * 300 < u64Size := by
        by_cases hx : p * 300 < u64Size
        · simp [checked_mul, SERVICE_FEE_BASIS_POINTS, hx] at h
        · exact hx
      have h1 : ¬ p * 500 < u64Size := by omega
      exact settleFees_err_mul p ρ h1
    · have h3 : ¬ p * 500 / 10000 + p * 300 / 10000 < u64Size := by
        by_cases hx : p * 500 / 10000 + p * 300 / 10000 < u64Size
        · simp [checked_add, hx] at h
        · exact hx
      have hf := fee_sum_le p
      have h1 : ¬ p * 500 < u64Size := by omega
      exact settleFees_err_mul p ρ h1
    · have h2 : ¬ p - (p * 500 / 10000 + p * 300 / 10000) + ρ < u64Size := by
        by_cases hx : p - (p * 500 / 10000 + p * 300 / 10000) + ρ < u64Size
        · simp [checked_add, hx] at h
        · exact hx
      by_cases h1 : p * 500 < u64Size
      · exact settleFees_err_add p ρ h1 h2
      · exact settleFees_err_mul p ρ h1
  exact announce_err_settle room vault caller wpk wa sa ρ now _
    hc hwa hsa hst hmem hp hFs

theorem c8_witness :
    announce_winner sampleRoomFull (u64Size - 1) 0 2 2 SERVICE_WALLET_PUBKEY
      0 7 = .error (.palapa .CalculationOverflow) :=
  c8_overflow_fails sampleRoomFull (u64Size - 1) 0 2 2 SERVICE_WALLET_PUBKEY
    0 7 (by decide) rfl rfl (by decide) (by decide) (by decide)
    (Or.inl (by decide))

/-- Claim C9: for every prize pool, `floor(p*500/10000) + floor(p*300/10000)
≤ p`, so the checked subtraction producing the winner share never
underflows and the divisions by the constant denominator never fail: the
`CalculationOverflow` branches on those two steps are unreachable, and
`settleFees` can only fail at a fee multiplication or at the winner-total
addition. -/
theorem c9_unreachable_branches (p ρ : Nat) :
    p * 500 / 10000 + p * 300 / 10000 ≤ p ∧
    checked_div (p * 500) BASIS_POINTS_DENOMINATOR = some (p * 500 / 10000) ∧
    checked_div (p * 300) BASIS_POINTS_DENOMINATOR = some (p * 300 / 10000) ∧
    checked_sub p (p * 500 / 10000 + p * 300 / 10000) =
      some (p - (p * 500 / 10000 + p * 300 / 10000)) ∧
    ((checked_mul p CREATOR_FEE_BASIS_POINTS).isSome →
      (checked_add (p - (p * 500 / 10000 + p * 300 / 10000)) ρ).isSome →
      ∃ out, settleFees p ρ = .ok out) := by
  refine ⟨fee_sum_le p, by simp [checked_div, BASIS_POINTS_DENOMINATOR],
    by simp [checked_div, BASIS_POINTS_DENOMINATOR],
    by simp [checked_sub, fee_sum_le p], ?_⟩
  intro hm ha
  have h1 : p * 500 < u64Size := by
    by_cases hx : p * 500 < u64Size
    · exact hx
    · simp [checked_mul, CREATOR_FEE_BASIS_POINTS, hx] at hm
  have h2 : p - (p * 500 / 10000 + p * 300 / 10000) + ρ < u64Size := by
    by_cases hx : p - (p * 500 / 10000 + p * 300 / 10000) + ρ < u64Size
    · exact hx
    · simp [checked_add, hx] at ha
  exact ⟨_, settleFees_ok p ρ h1 h2⟩

theorem c9_witness :
    9999 * 500 / 10000 + 9999 * 300 / 10000 ≤ 9999 ∧
    (∃ out, settleFees 9999 5 = .ok out) :=
  ⟨(c9_unreachable_branches 9999 5).1,
   (c9_unreachable_branches 9999 5).2.2.2.2 (by decide) (by decide)⟩

/-- Claim C10: no reachable room ever has status `Created` — `create_room`
initializes the status to `OpenForJoining` and no operation assigns
`Created` — so every reachable status is one of `OpenForJoining`,
`InProgress`, `Finished`, `Cancelled`, and it is never the
`RoomStatus::Created` disjunct that enables a successful cancellation. -/
theorem c10_created_unreachable (ρ : Nat) (s : ChainState)
    (h : Reachable ρ s) :
    s.room.status ≠ RoomStatus.Created ∧
    (s.room.status = RoomStatus.OpenForJoining ∨
     s.room.status = RoomStatus.InProgress ∨
     s.room.status = RoomStatus.Finished ∨
     s.room.status = RoomStatus.Cancelled) ∧
    (∀ caller now out, cancel_room s.room s.vault caller now = .ok out →
      s.room.status = RoomStatus.OpenForJoining) := by
  have henum : s.room.status = RoomStatus.OpenForJoining ∨
      s.room.status = RoomStatus.InProgress ∨
      s.room.status = RoomStatus.Finished ∨
      s.room.status = RoomStatus.Cancelled := by
    induction h with
    | created c seed mp fee now room hcr =>
      have hrm := create_ok_inv c seed mp fee now room hcr
      subst hrm
      exact Or.inl rfl
    | step s op s' hr hrun ih =>
      cases op with
      | joinOp p l =>
        rcases hJ : join_room s.room s.vault p l with e | ⟨r, v⟩
        · simp [runOp, hJ] at hrun
        · obtain ⟨hst, hlen, hmem, hr'⟩ := join_ok_inv _ _ _ _ _ _ hJ
          have hs' : s' = ⟨r, v⟩ := by
            simp [runOp, hJ] at hrun
            exact hrun.symm
          subst hs'
          subst hr'
          by_cases hfull : (s.room.players ++ [p]).length = s.room.max_players
          · rw [if_pos hfull]
            exact Or.inr (Or.inl rfl)
          · rw [if_neg hfull]
            exact Or.inl hst
      | announceOp c wpk wa sa now =>
        rcases hA : announce_winner s.room s.vault c wpk wa sa ρ now
          with e | ⟨r, v, ts⟩
        · simp [runOp, hA] at hrun
        · obtain ⟨_, hr', _, _⟩ := announce_ok_inv _ _ _ _ _ _ _ _ _ _ _ hA
          have hs' : s' = ⟨r, v⟩ := by
            simp [runOp, hA] at hrun
            exact hrun.symm
          subst hs'
          subst hr'
          exact Or.inr (Or.inr (Or.inl rfl))
      | cancelOp c now =>
        rcases hC : cancel_room s.room s.vault c now with e | ⟨r, v, ts⟩
        · simp [runOp, hC] at hrun
        · obtain ⟨_, _, _, hr', _, _⟩ := cancel_ok_inv _ _ _ _ _ _ _ hC
          have hs' : s' = ⟨r, v⟩ := by
            simp [runOp, hC] at hrun
            exact hrun.symm
          subst hs'
          subst hr'
          exact Or.inr (Or.inr (Or.inr rfl))
  refine ⟨?_, henum, ?_⟩
  · rcases henum with h' | h' | h' | h' <;> simp [h']
  · intro caller now out hok
    obtain ⟨r', v', ts⟩ := out
    obtain ⟨_, hst, _⟩ := cancel_ok_inv s.room s.vault caller now r' v' ts hok
    rcases hst with h' | h'
    · exact h'
    · rw [h'] at henum
      simp at henum

theorem c10_witness :
    sampleOpenState.room.status ≠ RoomStatus.Created ∧
    (sampleOpenState.room.status = RoomStatus.OpenForJoining ∨
     sampleOpenState.room.status = RoomStatus.InProgress ∨
     sampleOpenState.room.status = RoomStatus.Finished ∨
     sampleOpenState.room.status = RoomStatus.Cancelled) ∧
    (∀ caller now out,
      cancel_room sampleOpenState.room sampleOpenState.vault caller now =
        .ok out →
      sampleOpenState.room.status = RoomStatus.OpenForJoining) :=
  c10_created_unreachable 5 sampleOpenState
    (Reachable.created 0 "r" 2 0 0 sampleRoomOpen (by decide))
